import Mathlib

/-!
Verification of the Victorian crime-statistics data processor
(`Scripts/data_ingestion/data_processor.py`).

Tabular data is modelled shallowly: a `DataFrame` is a list of column
names together with indexed rows of cell values.  Cell values (`Val`)
are missing (`na`, modelling `NaN`/`None`), numbers (`num`, modelling
Python ints/floats as exact rationals) or strings.  Pandas operations
used by the processor (rename, `to_numeric` with coerce, boolean
filtering, `concat` with column alignment and `ignore_index`,
`sort_values`, `reset_index`, `groupby`/`agg`, `pct_change`) are
translated as total functions, with exceptions modelled by `Except`.
Filesystem interaction is modelled by an explicit event trace.

Notes on pandas corners that the claims do not exercise: frames with
duplicate column labels are not distinguished (first occurrence wins on
access), the unstable quicksort behind the pandas sort is refined to an insertion
sort (any sorted permutation is a valid refinement), aggregate `sum` and
`mean` skip non-numeric cells, `pct_change` over a zero or missing
predecessor yields a missing value, and scientific notation is not
accepted by the numeric parser.
-/

/-- A pandas cell value: missing (`NaN`), numeric, or string. -/
inductive Val where
  | na : Val
  | num : Rat → Val
  | str : String → Val
deriving DecidableEq

/-- A pandas DataFrame: column labels plus rows, each row carrying its
index label (a natural number, as produced by `RangeIndex`). -/
structure DataFrame where
  cols : List String
  rows : List (Nat × List Val)
deriving DecidableEq

/-- First position of a column label in a label list (`df.columns.get_loc`). -/
def idxOf? (c : String) : List String → Option Nat
  | [] => none
  | x :: xs => if x = c then some 0 else (idxOf? c xs).map (· + 1)

/-- Cell of a value row at a named column; missing cells and absent
columns read as `na`. -/
def getValRow (cols : List String) (row : List Val) (c : String) : Val :=
  match idxOf? c cols with
  | some i => (row.get? i).getD .na
  | none => .na

theorem idxOf?_isSome_of_mem {c : String} : ∀ {l : List String}, c ∈ l → (idxOf? c l).isSome := by
  intro l h
  induction l with
  | nil => cases h
  | cons x xs ih =>
    simp only [idxOf?]
    by_cases hx : x = c
    · simp [hx]
    · have : c ∈ xs := by
        cases h with
        | head => exact absurd rfl hx
        | tail _ h => exact h
      rcases Option.isSome_iff_exists.mp (ih this) with ⟨i, hi⟩
      simp [hx, hi]

theorem idxOf?_get? {c : String} : ∀ {l : List String} {i : Nat}, idxOf? c l = some i → l.get? i = some c := by
  intro l
  induction l with
  | nil => intro i h; simp [idxOf?] at h
  | cons x xs ih =>
    intro i h
    simp only [idxOf?] at h
    by_cases hx : x = c
    · simp [hx] at h
      subst h
      simp [hx]
    · simp [hx] at h
      rcases h with ⟨j, hj, rfl⟩
      simpa using ih hj

/-- Total ordering used by `sort_values`: numbers first (by value), then
strings (lexicographically), missing values last (`na_position = last`). -/
def valLe : Val → Val → Bool
  | .num a, .num b => decide (a ≤ b)
  | .num _, .str _ => true
  | .num _, .na => true
  | .str _, .num _ => false
  | .str a, .str b => decide (a ≤ b)
  | .str _, .na => true
  | .na, .na => true
  | .na, _ => false

theorem valLe_total : ∀ a b, valLe a b = true ∨ valLe b a = true := by
  intro a b
  cases a <;> cases b <;> simp [valLe] <;> exact le_total _ _

theorem valLe_trans : ∀ a b c, valLe a b = true → valLe b c = true → valLe a c = true := by
  intro a b c hab hbc
  cases a <;> cases b <;> cases c <;> simp [valLe] at * <;> exact le_trans hab hbc

theorem valLe_antisymm : ∀ a b, valLe a b = true → valLe b a = true → a = b := by
  intro a b hab hba
  cases a <;> cases b <;>
    simp only [valLe, decide_eq_true_eq, Bool.false_eq_true, Val.num.injEq, Val.str.injEq] at * <;>
    exact le_antisymm hab hba

/-- Lexicographic order on a pair of sort keys. -/
def pairLe (p q : Val × Val) : Bool :=
  if p.1 = q.1 then valLe p.2 q.2 else valLe p.1 q.1

theorem pairLe_total : ∀ p q, pairLe p q = true ∨ pairLe q p = true := by
  intro p q
  by_cases h : p.1 = q.1
  · simp [pairLe, h]
    exact valLe_total _ _
  · have h' : ¬ q.1 = p.1 := fun hh => h hh.symm
    simp [pairLe, h, h']
    exact valLe_total _ _

theorem pairLe_trans : ∀ p q r, pairLe p q = true → pairLe q r = true → pairLe p r = true := by
  intro p q r hpq hqr
  unfold pairLe at *
  by_cases h1 : p.1 = q.1 <;> by_cases h2 : q.1 = r.1
  · rw [if_pos h1] at hpq
    rw [if_pos h2] at hqr
    rw [if_pos (h1.trans h2)]
    exact valLe_trans _ _ _ hpq hqr
  · rw [if_pos h1] at hpq
    rw [if_neg h2] at hqr
    have h3 : ¬ p.1 = r.1 := fun hh => h2 (h1.symm.trans hh)
    rw [if_neg h3, h1]
    exact hqr
  · rw [if_neg h1] at hpq
    rw [if_pos h2] at hqr
    have h3 : ¬ p.1 = r.1 := fun hh => h1 (hh.trans h2.symm)
    rw [if_neg h3, ← h2]
    exact hpq
  · rw [if_neg h1] at hpq
    rw [if_neg h2] at hqr
    by_cases h3 : p.1 = r.1
    · exfalso
      rw [h3] at hpq
      exact h1 (h3.trans (valLe_antisymm _ _ hqr hpq).symm)
    · rw [if_neg h3]
      exact valLe_trans _ _ _ hpq hqr

/-- Lexicographic order on composite (multi-column) sort keys. -/
def listLe : List Val → List Val → Bool
  | [], _ => true
  | _ :: _, [] => false
  | a :: as, b :: bs => if a = b then listLe as bs else valLe a b

/-- Insertion into a sorted list (used to model the pandas sort; its
default quicksort is refined by any sorted permutation). -/
def linsert (le : α → α → Bool) (x : α) : List α → List α
  | [] => [x]
  | y :: ys => if le x y then x :: y :: ys else y :: linsert le x ys

/-- Insertion sort modelling `sort_values`. -/
def lsort (le : α → α → Bool) : List α → List α
  | [] => []
  | x :: xs => linsert le x (lsort le xs)

theorem linsert_perm (le : α → α → Bool) (x : α) : ∀ l : List α, (linsert le x l).Perm (x :: l) := by
  intro l
  induction l with
  | nil => simp [linsert]
  | cons y ys ih =>
    simp only [linsert]
    by_cases h : le x y
    · simp [h]
    · simp only [h, if_neg, Bool.false_eq_true, not_false_eq_true]
      exact (ih.cons y).trans (List.Perm.swap x y ys)

theorem lsort_perm (le : α → α → Bool) : ∀ l : List α, (lsort le l).Perm l := by
  intro l
  induction l with
  | nil => simp [lsort]
  | cons x xs ih =>
    exact (linsert_perm le x (lsort le xs)).trans (ih.cons x)

theorem mem_linsert (le : α → α → Bool) (x z : α) (l : List α) :
    z ∈ linsert le x l ↔ z = x ∨ z ∈ l := by
  rw [(linsert_perm le x l).mem_iff]
  simp

theorem linsert_pairwise (le : α → α → Bool)
    (htot : ∀ a b, le a b = true ∨ le b a = true)
    (htr : ∀ a b c, le a b = true → le b c = true → le a c = true)
    (x : α) : ∀ l : List α, List.Pairwise (fun a b => le a b = true) l →
    List.Pairwise (fun a b => le a b = true) (linsert le x l) := by
  intro l h
  induction l with
  | nil => simp [linsert]
  | cons y ys ih =>
    rcases List.pairwise_cons.mp h with ⟨hy, hys⟩
    simp only [linsert]
    by_cases hxy : le x y
    · simp only [hxy, if_pos]
      refine List.pairwise_cons.mpr ⟨?_, h⟩
      intro z hz
      cases hz with
      | head => exact hxy
      | tail _ hz => exact htr _ _ _ hxy (hy z hz)
    · simp only [hxy, Bool.false_eq_true, if_neg, not_false_eq_true]
      have hyx : le y x = true := by
        rcases htot x y with hc | hc
        · exact absurd hc hxy
        · exact hc
      refine List.pairwise_cons.mpr ⟨?_, ih hys⟩
      intro z hz
      rcases (mem_linsert le x z ys).mp hz with rfl | hz
      · exact hyx
      · exact hy z hz

theorem lsort_pairwise (le : α → α → Bool)
    (htot : ∀ a b, le a b = true ∨ le b a = true)
    (htr : ∀ a b c, le a b = true → le b c = true → le a c = true) :
    ∀ l : List α, List.Pairwise (fun a b => le a b = true) (lsort le l) := by
  intro l
  induction l with
  | nil => simp [lsort]
  | cons x xs ih => exact linsert_pairwise le htot htr x (lsort le xs) ih

/-- Digit string to natural number (base 10). -/
def digitsToNat (cs : List Char) : Nat :=
  cs.foldl (fun n c => n * 10 + (c.toNat - 48)) 0

/-- Rational addition, kernel-reducible (Batteries marks `Rat.add`
`@[irreducible]`, blocking evaluation inside `decide`). Proved equal to
`+` below. -/
def ratAdd (a b : Rat) : Rat :=
  mkRat (a.num * b.den + b.num * a.den) (a.den * b.den)

/-- Rational subtraction, kernel-reducible. -/
def ratSub (a b : Rat) : Rat :=
  mkRat (a.num * b.den - b.num * a.den) (a.den * b.den)

/-- Rational multiplication, kernel-reducible. -/
def ratMul (a b : Rat) : Rat :=
  mkRat (a.num * b.num) (a.den * b.den)

/-- Rational division, kernel-reducible (division by zero yields 0,
matching `Rat.div`). -/
def ratDiv (a b : Rat) : Rat :=
  Rat.divInt (a.num * b.den) (a.den * b.num)

theorem ratAdd_eq (a b : Rat) : ratAdd a b = a + b :=
  (Rat.add_def' a b).symm

theorem ratSub_eq (a b : Rat) : ratSub a b = a - b :=
  (Rat.sub_def' a b).symm

theorem ratMul_eq (a b : Rat) : ratMul a b = a * b := by
  rw [Rat.mul_def, ratMul, Rat.mkRat_def]
  rw [dif_neg (Nat.mul_ne_zero a.den_nz b.den_nz)]

theorem ratDiv_eq (a b : Rat) : ratDiv a b = a / b := by
  unfold ratDiv
  rw [Rat.divInt_eq_div]
  rcases eq_or_ne b 0 with rfl | hb
  · simp
  · have hbn : (b.num : Rat) ≠ 0 := by
      exact_mod_cast Rat.num_ne_zero.mpr hb
    have had : (a.den : Rat) ≠ 0 := by
      exact_mod_cast a.den_nz
    conv_rhs => rw [← Rat.num_div_den a, ← Rat.num_div_den b]
    push_cast
    field_simp

/-- Whitespace recognised when trimming a numeric literal. -/
def isSpaceChar (c : Char) : Bool :=
  c = ' ' ∨ c = '\t' ∨ c = '\n' ∨ c = '\r'

/-- Strip leading and trailing whitespace. -/
def trimChars (cs : List Char) : List Char :=
  ((cs.dropWhile isSpaceChar).reverse.dropWhile isSpaceChar).reverse

/-- Parse a decimal literal the way `pd.to_numeric` accepts plain int or
float strings: optional sign, digits, optional single decimal point
(scientific notation is not modelled; see header). Returns `none` on
anything unparseable. -/
def parseNumString (s : String) : Option Rat :=
  let cs := trimChars s.toList
  let sgn : Int := match cs with
    | '-' :: _ => -1
    | _ => 1
  let ds : List Char := match cs with
    | '-' :: rest => rest
    | '+' :: rest => rest
    | _ => cs
  match ds.span (fun c => c ≠ '.') with
  | (ip, []) =>
    if ip ≠ [] ∧ ip.all Char.isDigit then
      some ((sgn * (digitsToNat ip : Int) : Int) : Rat)
    else none
  | (ip, _ :: fp) =>
    if (ip ++ fp) ≠ [] ∧ (ip ++ fp).all Char.isDigit then
      some (ratMul ((sgn : Int) : Rat)
        (ratAdd ((digitsToNat ip : Int) : Rat) (mkRat (digitsToNat fp) (10 ^ fp.length))))
    else none

/-- Model of `pd.to_numeric` with coerce on one cell: numbers pass
through, parseable strings become numbers, anything else becomes `NaN`.
Total: coercion never raises. -/
def toNumericVal : Val → Val
  | .num q => .num q
  | .na => .na
  | .str s =>
    match parseNumString s with
    | some q => .num q
    | none => .na

/-- The 2012-2021 entry of `CrimeDataProcessor.COLUMN_MAPPINGS`. -/
def mapping_2012_2021 : List (String × String) :=
  [("Year", "year"), ("Year ending", "year_ending"), ("Police Region", "police_region"),
   ("Local Government Area", "lga_name"), ("Incidents Recorded", "incidents_recorded"),
   ("Rate per 100,000 population", "rate_per_100000"), ("Offence Division", "offence_division"),
   ("Offence Subdivision", "offence_subdivision"), ("Offence Subgroup", "offence_subgroup"),
   ("Police Service Area", "police_service_area"), ("Postcode", "postcode"),
   ("Suburb/Town Name", "suburb"), ("Location Division", "location_division"),
   ("Location Subdivision", "location_subdivision"), ("Location Group", "location_group"),
   ("Charge Status", "charge_status")]

/-- The 2010-2019 entry of `CrimeDataProcessor.COLUMN_MAPPINGS`. -/
def mapping_2010_2019 : List (String × String) :=
  [("Year", "year"), ("Year ending", "year_ending"), ("LGA_CODE", "lga_code"),
   ("LGA_NAME", "lga_name"), ("lga_name", "lga_name"), ("Local Government Area", "lga_name"),
   ("Offence Division", "offence_division"), ("Offence Subdivision", "offence_subdivision"),
   ("Offence Subgroup", "offence_subgroup"), ("offence_division", "offence_division"),
   ("Incidents Recorded", "incidents_recorded"), ("incidents_recorded", "incidents_recorded"),
   ("Rate per 100,000 population", "rate_per_100000"), ("rate_per_100000", "rate_per_100000")]

/-- Lookup of a vintage in `COLUMN_MAPPINGS` with a default, as the
Python dict get does: unknown vintages give the
empty mapping. -/
def COLUMN_MAPPINGS (source_type : String) : List (String × String) :=
  if source_type = "2012_2021" then mapping_2012_2021
  else if source_type = "2010_2019" then mapping_2010_2019
  else []

/-- Model of the pandas rename of columns on one label: mapped labels are
replaced, all others pass through. -/
def renameCol (m : List (String × String)) (c : String) : String :=
  (m.lookup c).getD c

/-- Coerce every cell sitting under a `year` label
(the to_numeric assignment to the year column in the source). -/
def coerceYearRow (cols : List String) (row : List Val) : List Val :=
  List.zipWith (fun c v => if c = "year" then toNumericVal v else v) cols row

/-- Model of `CrimeDataProcessor._standardize_columns`: rename the columns that
appear in the vintage's mapping, then coerce `year` to numeric if a
`year` column exists. -/
def standardize_columns (df : DataFrame) (source_type : String) : DataFrame :=
  let m := COLUMN_MAPPINGS source_type
  let cols := df.cols.map (renameCol m)
  if "year" ∈ cols then
    { cols := cols, rows := df.rows.map (fun r => (r.1, coerceYearRow cols r.2)) }
  else
    { cols := cols, rows := df.rows }

/-- Column assignment of a constant value: overwrite the column if the label
exists, else append a new column at the end. -/
def setConstCol (df : DataFrame) (c : String) (v : Val) : DataFrame :=
  if c ∈ df.cols then
    { df with rows := df.rows.map (fun r =>
        (r.1, List.zipWith (fun cn x => if cn = c then v else x) df.cols r.2)) }
  else
    { cols := df.cols ++ [c], rows := df.rows.map (fun r => (r.1, r.2 ++ [v])) }

/-- Numeric payload of a cell, if any. -/
def numOf : Val → Option Rat
  | .num q => some q
  | _ => none

/-- Values of the first column with the given label (empty if absent). -/
def getColD (df : DataFrame) (c : String) : List Val :=
  match idxOf? c df.cols with
  | some i => df.rows.map (fun r => (r.2.get? i).getD .na)
  | none => []

/-- The set of non-missing year values, as a list (duplicates are harmless to
`min`/`max`/membership). -/
def yearsOf (df : DataFrame) : List Rat :=
  (getColD df "year").filterMap numOf

/-- Minimum of a Python sequence: `none` on an empty sequence (where
Python raises `ValueError`). -/
def listMin : List Rat → Option Rat
  | [] => none
  | x :: xs =>
    match listMin xs with
    | none => some x
    | some m => some (if x ≤ m then x else m)

/-- Maximum of a Python sequence: `none` on an empty sequence. -/
def listMax : List Rat → Option Rat
  | [] => none
  | x :: xs =>
    match listMax xs with
    | none => some x
    | some m => some (if x ≤ m then m else x)

theorem listMin_isSome : ∀ {l : List Rat}, l ≠ [] → (listMin l).isSome := by
  intro l h
  cases l with
  | nil => exact absurd rfl h
  | cons x xs =>
    simp only [listMin]
    cases listMin xs <;> simp

theorem listMax_isSome : ∀ {l : List Rat}, l ≠ [] → (listMax l).isSome := by
  intro l h
  cases l with
  | nil => exact absurd rfl h
  | cons x xs =>
    simp only [listMax]
    cases listMax xs <;> simp

theorem listMin_le : ∀ {l : List Rat} {m : Rat}, listMin l = some m → ∀ y ∈ l, m ≤ y := by
  intro l
  induction l with
  | nil => intro m h; simp [listMin] at h
  | cons x xs ih =>
    intro m h y hy
    simp only [listMin] at h
    cases hmx : listMin xs with
    | none =>
      rw [hmx] at h
      cases xs with
      | nil =>
        simp at h
        subst h
        simp at hy
        subst hy
        exact le_refl _
      | cons a as => simp [listMin] at hmx; cases hmx' : listMin as <;> rw [hmx'] at hmx <;> simp at hmx
    | some m0 =>
      rw [hmx] at h
      simp at h
      subst h
      by_cases hx : x ≤ m0
      · rw [if_pos hx]
        cases hy with
        | head => exact le_refl _
        | tail _ hy => exact le_trans hx (ih hmx y hy)
      · rw [if_neg hx]
        cases hy with
        | head => exact le_of_not_le hx
        | tail _ hy => exact ih hmx y hy

theorem listMax_ge : ∀ {l : List Rat} {m : Rat}, listMax l = some m → ∀ y ∈ l, y ≤ m := by
  intro l
  induction l with
  | nil => intro m h; simp [listMax] at h
  | cons x xs ih =>
    intro m h y hy
    simp only [listMax] at h
    cases hmx : listMax xs with
    | none =>
      rw [hmx] at h
      cases xs with
      | nil =>
        simp at h
        subst h
        simp at hy
        subst hy
        exact le_refl _
      | cons a as => simp [listMax] at hmx; cases hmx' : listMax as <;> rw [hmx'] at hmx <;> simp at hmx
    | some m0 =>
      rw [hmx] at h
      simp at h
      subst h
      by_cases hx : x ≤ m0
      · rw [if_pos hx]
        cases hy with
        | head => exact hx
        | tail _ hy => exact ih hmx y hy
      · rw [if_neg hx]
        cases hy with
        | head => exact le_refl _
        | tail _ hy => exact le_trans (ih hmx y hy) (le_of_not_le hx)

/-- Boolean-mask filter keeping rows whose year is below the bound;
`NaN`
comparisons are false, so `NaN`-year rows are dropped (pandas). -/
def filterYearLt (df : DataFrame) (m : Rat) : DataFrame :=
  { df with rows := df.rows.filter (fun r =>
      match getValRow df.cols r.2 "year" with
      | .num q => decide (q < m)
      | _ => false) }

/-- Boolean-mask filter keeping rows whose year is above the bound. -/
def filterYearGt (df : DataFrame) (m : Rat) : DataFrame :=
  { df with rows := df.rows.filter (fun r =>
      match getValRow df.cols r.2 "year" with
      | .num q => decide (q > m)
      | _ => false) }

/-- Column union in order of first appearance, as `pd.concat`
(outer join, `sort := False`) aligns columns. -/
def unionCols (c1 c2 : List String) : List String :=
  c1 ++ c2.filter (fun c => ¬ (c ∈ c1))

/-- Re-express a row over the aligned column list; columns the source
frame lacks are filled with `NaN`. -/
def alignRow (orig targ : List String) (row : List Val) : List Val :=
  targ.map (fun c => getValRow orig row c)

/-- Model of the pandas concat with ignored index: align columns, stack the
rows, and renumber the index from 0. -/
def concatAlign (a b : DataFrame) : DataFrame :=
  let cols := unionCols a.cols b.cols
  { cols := cols,
    rows := ((a.rows.map (fun r => alignRow a.cols cols r.2))
              ++ (b.rows.map (fun r => alignRow b.cols cols r.2))).enum }

/-- Sort key of the merge sort: year, then lga_name. -/
def rowKey (cols : List String) (row : List Val) : Val × Val :=
  (getValRow cols row "year", getValRow cols row "lga_name")

/-- Errors raised (as Python exceptions) by the merge pipeline. -/
inductive MergeError where
  | noData : MergeError
  | keyError : MergeError
  | valueError : MergeError
deriving DecidableEq

/-- The final sort of the merge, by year then lga_name, followed by the
index reset: a missing sort column raises the key error, otherwise sort
and renumber. -/
def sortMerged (df : DataFrame) : Except MergeError DataFrame :=
  if "year" ∈ df.cols ∧ "lga_name" ∈ df.cols then
    let sorted := lsort (fun p q => pairLe (rowKey df.cols p.2) (rowKey df.cols q.2)) df.rows
    .ok { cols := df.cols, rows := (sorted.map Prod.snd).enum }
  else .error .keyError

/-- Core of `CrimeDataProcessor.merge_time_series` once both tables are
in hand: pick the overlap policy, concatenate, sort, re-index.
`keyError` models indexing a frame without a year column; `valueError`
models the Python min or max of an empty sequence. -/
def merge_both (df_2010 df_2012 : DataFrame) (prefer_september : Bool) :
    Except MergeError DataFrame :=
  if "year" ∈ df_2012.cols ∧ "year" ∈ df_2010.cols then
    let years_2012 := yearsOf df_2012
    let years_2010 := yearsOf df_2010
    if prefer_september then
      match listMin years_2012 with
      | none => .error .valueError
      | some m =>
        sortMerged (concatAlign (filterYearLt df_2010 m) df_2012)
    else
      match listMax years_2010 with
      | none => .error .valueError
      | some m =>
        sortMerged (concatAlign df_2010 (filterYearGt df_2012 m))
  else .error .keyError

/-- A filesystem access performed by the processor: reading a source
workbook or writing an export file. -/
inductive FsEvent where
  | read : String → FsEvent
  | write : String → FsEvent
deriving DecidableEq

/-- One processor session: the per-instance cache (`self.loaded_data`)
and the contents of the two source workbooks on disk (`none` = file
absent; a present file is modelled by its already-parsed sheet). -/
structure ProcState where
  cached2012 : Option DataFrame
  cached2010 : Option DataFrame
  file2012 : Option DataFrame
  file2010 : Option DataFrame
deriving DecidableEq

/-- Loader `load_criminal_incidents_2012_2021` applied to the raw sheet:
standardize, stamp `data_source` and `year_ending_month`. -/
def load2012 (raw : DataFrame) : DataFrame :=
  setConstCol (setConstCol (standardize_columns raw "2012_2021")
    "data_source" (.str "CSA_2012_2021")) "year_ending_month" (.str "September")

/-- Loader `load_criminal_incidents_2010_2019` applied to the raw sheet. -/
def load2010 (raw : DataFrame) : DataFrame :=
  setConstCol (setConstCol (standardize_columns raw "2010_2019")
    "data_source" (.str "CSA_2010_2019")) "year_ending_month" (.str "March")

/-- Acquisition of the September table by `merge_time_series`: cache
first, else load from disk (recording the read), else unobtainable
(the loader's `FileNotFoundError` is caught and turned into `None`). -/
def obtain2012 (s : ProcState) : Option DataFrame × List FsEvent :=
  match s.cached2012 with
  | some d => (some d, [])
  | none =>
    match s.file2012 with
    | some raw => (some (load2012 raw), [.read "criminal_incidents_2012_2021"])
    | none => (none, [])

/-- Acquisition of the March table by `merge_time_series`. -/
def obtain2010 (s : ProcState) : Option DataFrame × List FsEvent :=
  match s.cached2010 with
  | some d => (some d, [])
  | none =>
    match s.file2010 with
    | some raw => (some (load2010 raw), [.read "criminal_incidents_2010_2019"])
    | none => (none, [])

/-- Model of `CrimeDataProcessor.merge_time_series`: obtain both tables (loading
on demand), fail with `noData` if neither is available, return a single
table unchanged if only one is, else merge. The event trace records
the file reads performed. -/
def merge_time_series (s : ProcState) (prefer_september : Bool) :
    Except MergeError DataFrame × List FsEvent :=
  let r12 := obtain2012 s
  let r10 := obtain2010 s
  let evs := r12.2 ++ r10.2
  match r12.1, r10.1 with
  | none, none => (.error .noData, evs)
  | some d12, none => (.ok d12, evs)
  | none, some d10 => (.ok d10, evs)
  | some d12, some d10 => (merge_both d10 d12 prefer_september, evs)

/-- Errors surfaced by `export_merged_data`: an unsupported format
(`ValueError` raised by the format dispatch) or a failure propagated
from the merge it performs first. -/
inductive ExportError where
  | unsupportedFormat : ExportError
  | mergeFailed : MergeError → ExportError
deriving DecidableEq

/-- Model of `CrimeDataProcessor.export_merged_data`: merge first (with the
default September preference), then build the output path, then
dispatch on the format — writing for the three supported formats,
raising `ValueError` otherwise. -/
def export_merged_data (s : ProcState) (output_format : String)
    (filename : Option String) : Except ExportError String × List FsEvent :=
  match merge_time_series s true with
  | (.error e, evs) => (.error (.mergeFailed e), evs)
  | (.ok _, evs) =>
    let fname := filename.getD ("criminal_incidents_extended_2010_2021." ++ output_format)
    let output_path := "Output_data/" ++ fname
    if output_format = "csv" then (.ok output_path, evs ++ [.write output_path])
    else if output_format = "excel" then (.ok output_path, evs ++ [.write output_path])
    else if output_format = "parquet" then (.ok output_path, evs ++ [.write output_path])
    else (.error .unsupportedFormat, evs)

/-- Errors raised by the aggregation helpers: the explicit
`offence_division` check (`ValueError`), a `groupby`/`agg` on an absent
column (`KeyError`), and a pandas `groupby` with an empty key list
(`ValueError: No group keys passed`). -/
inductive AggError where
  | missingColumn : AggError
  | keyError : AggError
  | noGroupKeys : AggError
deriving DecidableEq

/-- Deduplicate group keys in order of first appearance. -/
def dedupKeys [DecidableEq κ] (ks : List κ) : List κ :=
  ks.foldl (fun acc k => if k ∈ acc then acc else acc ++ [k]) []

/-- Sum of the numeric `incidents_recorded` cells of a row group
(pandas `sum` skips `NaN` and yields 0 on an empty group). -/
def sumIncid (cols : List String) (rows : List (List Val)) : Rat :=
  rows.foldl (fun acc r =>
    match getValRow cols r "incidents_recorded" with
    | .num q => ratAdd acc q
    | _ => acc) 0

/-- Count of numeric `incidents_recorded` cells of a row group. -/
def countIncidNum (cols : List String) (rows : List (List Val)) : Nat :=
  (rows.filter (fun r =>
    match getValRow cols r "incidents_recorded" with
    | .num _ => true
    | _ => false)).length

/-- Count of non-missing `incidents_recorded` cells (pandas `count`). -/
def countIncid (cols : List String) (rows : List (List Val)) : Nat :=
  (rows.filter (fun r =>
    match getValRow cols r "incidents_recorded" with
    | .na => false
    | _ => true)).length

/-- Model of `CrimeDataProcessor.get_lga_summary`: group by the requested
columns that actually exist; aggregate `incidents_recorded` by
sum/mean/count when that column exists, else fall back to group sizes.
Group keys containing `NaN` are dropped and keys are emitted sorted
(`groupby` defaults). -/
def get_lga_summary (df : DataFrame) (group_cols : List String) :
    Except AggError DataFrame :=
  let valid_cols := group_cols.filter (fun c => c ∈ df.cols)
  if valid_cols.isEmpty then .error .noGroupKeys
  else
    let vrows := df.rows.map Prod.snd
    let keyOf := fun r => valid_cols.map (getValRow df.cols r)
    let krows := vrows.filter (fun r => (keyOf r).all (fun v => v ≠ .na))
    let keys := lsort listLe (dedupKeys (krows.map keyOf))
    if "incidents_recorded" ∈ df.cols then
      let rows := keys.map (fun k =>
        let g := krows.filter (fun r => keyOf r = k)
        let s := sumIncid df.cols g
        let n := countIncidNum df.cols g
        k ++ [Val.num s,
              if n = 0 then Val.na else Val.num (ratDiv s ((n : Int) : Rat)),
              Val.num (((countIncid df.cols g : Nat) : Int) : Rat)])
      .ok { cols := valid_cols ++ ["incidents_recorded_sum", "incidents_recorded_mean",
                                   "incidents_recorded_count"],
            rows := rows.enum }
    else
      let rows := keys.map (fun k =>
        k ++ [Val.num ((((krows.filter (fun r => keyOf r = k)).length : Nat) : Int) : Rat)])
      .ok { cols := valid_cols ++ ["count"], rows := rows.enum }

/-- Percentage change of `cur` against `prev`
(`pct_change() * 100`); missing when the predecessor is missing
(zero predecessors, ±inf in pandas, are modelled as missing). -/
def pctChange (prev cur : Val) : Val :=
  match prev, cur with
  | .num p, .num c => if p = 0 then .na else .num (ratMul (ratDiv (ratSub c p) p) 100)
  | _, _ => .na

/-- Columns of the trend table after `groupby.agg.reset_index`. -/
def trendBaseCols : List String := ["year", "offence_division", "incidents_recorded"]

/-- Columns of the trend table after the `yoy_change` assignment. -/
def trendCols : List String :=
  ["year", "offence_division", "incidents_recorded", "yoy_change"]

/-- The per-division percentage-change pass of the trend analysis,
over rows already sorted by (offence_division, year): walk the rows,
appending the year-over-year change; the first row of each
offence_division group gets `NaN`. Rows are `[year, division,
incidents]` triples produced by the aggregation. -/
def addYoy : Option (Val × Val) → List (Nat × List Val) → List (Nat × List Val)
  | _, [] => []
  | prev, (i, r) :: rs =>
    let d := getValRow trendBaseCols r "offence_division"
    let v := getValRow trendBaseCols r "incidents_recorded"
    let yoy : Val :=
      match prev with
      | some pdv => if pdv.1 = d then pctChange pdv.2 v else .na
      | none => .na
    (i, r ++ [yoy]) :: addYoy (some (d, v)) rs

/-- Sort key of the trend sort: offence_division, then year. -/
def rowKeyDY (cols : List String) (row : List Val) : Val × Val :=
  (getValRow cols row "offence_division", getValRow cols row "year")

/-- Model of `CrimeDataProcessor.get_offence_trends`: require `offence_division`
(`ValueError` otherwise), group by (year, offence_division) summing
`incidents_recorded`, sort by (offence_division, year), and append the
year-over-year percentage change per offence_division. -/
def get_offence_trends (df : DataFrame) : Except AggError DataFrame :=
  if "offence_division" ∈ df.cols then
    if "year" ∈ df.cols ∧ "incidents_recorded" ∈ df.cols then
      let vrows := df.rows.map Prod.snd
      let keyOf := fun r => (getValRow df.cols r "year", getValRow df.cols r "offence_division")
      let krows := vrows.filter (fun r => (keyOf r).1 ≠ .na ∧ (keyOf r).2 ≠ .na)
      let keys := lsort pairLe (dedupKeys (krows.map keyOf))
      let grows := keys.map (fun k =>
        [k.1, k.2, Val.num (sumIncid df.cols (krows.filter (fun r => keyOf r = k)))])
      let sorted := lsort
        (fun p q => pairLe (rowKeyDY trendBaseCols p.2) (rowKeyDY trendBaseCols q.2)) grows.enum
      .ok { cols := trendCols, rows := addYoy none sorted }
    else .error .keyError
  else .error .missingColumn

/-- The frame is sorted ascending by (year, lga_name). -/
def SortedByYearLga (df : DataFrame) : Prop :=
  List.Pairwise (fun r s => pairLe (rowKey df.cols r) (rowKey df.cols s) = true)
    (df.rows.map Prod.snd)

/-- The frame carries a fresh consecutive index 0, 1, 2, …
(a reset or ignored index). -/
def FreshIndex (df : DataFrame) : Prop :=
  df.rows.map Prod.fst = List.range df.rows.length

theorem sortMerged_isOk {d : DataFrame}
    (hc : "year" ∈ d.cols ∧ "lga_name" ∈ d.cols) :
    ∃ m, sortMerged d = .ok m := by
  unfold sortMerged
  rw [if_pos hc]
  exact ⟨_, rfl⟩

theorem sortMerged_ok {d m : DataFrame} (h : sortMerged d = .ok m) :
    m.cols = d.cols ∧ SortedByYearLga m ∧ FreshIndex m ∧
      (m.rows.map Prod.snd).Perm (d.rows.map Prod.snd) := by
  unfold sortMerged at h
  by_cases hc : "year" ∈ d.cols ∧ "lga_name" ∈ d.cols
  · rw [if_pos hc] at h
    simp only [Except.ok.injEq] at h
    subst h
    refine ⟨rfl, ?_, ?_, ?_⟩
    · unfold SortedByYearLga
      simp only [List.enum_map_snd]
      have hp := lsort_pairwise
        (fun p q : Nat × List Val => pairLe (rowKey d.cols p.2) (rowKey d.cols q.2))
        (fun p q => pairLe_total _ _)
        (fun p q r hpq hqr => pairLe_trans _ _ _ hpq hqr) d.rows
      exact hp.map Prod.snd (fun p q hpq => hpq)
    · unfold FreshIndex
      simp only [List.enum_length, List.enum_map_fst]
    · simp only [List.enum_map_snd]
      exact (lsort_perm _ d.rows).map Prod.snd
  · rw [if_neg hc] at h
    exact Except.noConfusion h

theorem concatAlign_rows_snd (a b : DataFrame) :
    (concatAlign a b).rows.map Prod.snd =
      a.rows.map (fun r => alignRow a.cols (unionCols a.cols b.cols) r.2)
        ++ b.rows.map (fun r => alignRow b.cols (unionCols a.cols b.cols) r.2) := by
  unfold concatAlign
  simp only [List.enum_map_snd]

theorem getValRow_alignRow (orig targ : List String) (row : List Val) (c : String)
    (hc : c ∈ targ) :
    getValRow targ (alignRow orig targ row) c = getValRow orig row c := by
  obtain ⟨i, hi⟩ := Option.isSome_iff_exists.mp (idxOf?_isSome_of_mem hc)
  have hg : targ.get? i = some c := idxOf?_get? hi
  calc getValRow targ (alignRow orig targ row) c
      = ((alignRow orig targ row).get? i).getD .na := by
        unfold getValRow
        rw [hi]
    _ = getValRow orig row c := by
        unfold alignRow
        rw [List.get?_map, hg]
        rfl

theorem mem_unionCols_left {c : String} {c1 c2 : List String} (h : c ∈ c1) :
    c ∈ unionCols c1 c2 :=
  List.mem_append_left _ h

theorem mem_filterYearLt {df : DataFrame} {m : Rat} {r : Nat × List Val}
    (h : r ∈ (filterYearLt df m).rows) :
    r ∈ df.rows ∧ ∃ q, getValRow df.cols r.2 "year" = .num q ∧ q < m := by
  unfold filterYearLt at h
  rw [List.mem_filter] at h
  refine ⟨h.1, ?_⟩
  have h2 := h.2
  cases hv : getValRow df.cols r.2 "year" with
  | num q =>
    rw [hv] at h2
    simp at h2
    exact ⟨q, rfl, h2⟩
  | na => rw [hv] at h2; simp at h2
  | str s => rw [hv] at h2; simp at h2

theorem mem_filterYearGt {df : DataFrame} {m : Rat} {r : Nat × List Val}
    (h : r ∈ (filterYearGt df m).rows) :
    r ∈ df.rows ∧ ∃ q, getValRow df.cols r.2 "year" = .num q ∧ m < q := by
  unfold filterYearGt at h
  rw [List.mem_filter] at h
  refine ⟨h.1, ?_⟩
  have h2 := h.2
  cases hv : getValRow df.cols r.2 "year" with
  | num q =>
    rw [hv] at h2
    simp at h2
    exact ⟨q, rfl, h2⟩
  | na => rw [hv] at h2; simp at h2
  | str s => rw [hv] at h2; simp at h2

theorem merge_both_true_eq (a b : DataFrame)
    (hay : "year" ∈ a.cols) (hby : "year" ∈ b.cols)
    {m0 : Rat} (hmin : listMin (yearsOf b) = some m0) :
    merge_both a b true = sortMerged (concatAlign (filterYearLt a m0) b) := by
  unfold merge_both
  rw [if_pos ⟨hby, hay⟩]
  simp only [if_true, hmin]

theorem merge_both_false_eq (a b : DataFrame)
    (hay : "year" ∈ a.cols) (hby : "year" ∈ b.cols)
    {m0 : Rat} (hmax : listMax (yearsOf a) = some m0) :
    merge_both a b false = sortMerged (concatAlign a (filterYearGt b m0)) := by
  unfold merge_both
  rw [if_pos ⟨hby, hay⟩]
  simp only [Bool.false_eq_true, if_false, hmax]

theorem merge_both_true_spec (a b : DataFrame)
    (hay : "year" ∈ a.cols) (hby : "year" ∈ b.cols)
    (hal : "lga_name" ∈ a.cols) (hbne : yearsOf b ≠ []) :
    ∃ m m0, listMin (yearsOf b) = some m0 ∧ merge_both a b true = .ok m ∧
      m.cols = unionCols a.cols b.cols ∧ SortedByYearLga m ∧ FreshIndex m ∧
      (m.rows.map Prod.snd).Perm
        ((filterYearLt a m0).rows.map (fun r => alignRow a.cols (unionCols a.cols b.cols) r.2)
          ++ b.rows.map (fun r => alignRow b.cols (unionCols a.cols b.cols) r.2)) := by
  obtain ⟨m0, hmin⟩ := Option.isSome_iff_exists.mp (listMin_isSome hbne)
  have hyu : "year" ∈ unionCols a.cols b.cols := mem_unionCols_left hay
  have hlu : "lga_name" ∈ unionCols a.cols b.cols := mem_unionCols_left hal
  obtain ⟨m, hm⟩ := sortMerged_isOk (d := concatAlign (filterYearLt a m0) b) ⟨hyu, hlu⟩
  obtain ⟨hc, hs, hf, hp⟩ := sortMerged_ok hm
  refine ⟨m, m0, hmin, ?_, hc, hs, hf, ?_⟩
  · rw [merge_both_true_eq a b hay hby hmin]
    exact hm
  · rw [concatAlign_rows_snd] at hp
    exact hp

theorem merge_both_false_spec (a b : DataFrame)
    (hay : "year" ∈ a.cols) (hby : "year" ∈ b.cols)
    (hal : "lga_name" ∈ a.cols) (hane : yearsOf a ≠ []) :
    ∃ m m0, listMax (yearsOf a) = some m0 ∧ merge_both a b false = .ok m ∧
      m.cols = unionCols a.cols b.cols ∧ SortedByYearLga m ∧ FreshIndex m ∧
      (m.rows.map Prod.snd).Perm
        (a.rows.map (fun r => alignRow a.cols (unionCols a.cols b.cols) r.2)
          ++ (filterYearGt b m0).rows.map (fun r => alignRow b.cols (unionCols a.cols b.cols) r.2)) := by
  obtain ⟨m0, hmax⟩ := Option.isSome_iff_exists.mp (listMax_isSome hane)
  have hyu : "year" ∈ unionCols a.cols b.cols := mem_unionCols_left hay
  have hlu : "lga_name" ∈ unionCols a.cols b.cols := mem_unionCols_left hal
  obtain ⟨m, hm⟩ := sortMerged_isOk (d := concatAlign a (filterYearGt b m0)) ⟨hyu, hlu⟩
  obtain ⟨hc, hs, hf, hp⟩ := sortMerged_ok hm
  refine ⟨m, m0, hmax, ?_, hc, hs, hf, ?_⟩
  · rw [merge_both_false_eq a b hay hby hmax]
    exact hm
  · rw [concatAlign_rows_snd] at hp
    exact hp

/-- A loaded March-vintage table with years 2010–2019 (one row per
year), as produced by the 2010–2019 loader. -/
def marchT : DataFrame :=
  { cols := ["year", "lga_name", "data_source"],
    rows := [(0, [Val.num 2010, Val.str "Melbourne", Val.str "CSA_2010_2019"]),
             (1, [Val.num 2011, Val.str "Melbourne", Val.str "CSA_2010_2019"]),
             (2, [Val.num 2012, Val.str "Melbourne", Val.str "CSA_2010_2019"]),
             (3, [Val.num 2013, Val.str "Melbourne", Val.str "CSA_2010_2019"]),
             (4, [Val.num 2014, Val.str "Melbourne", Val.str "CSA_2010_2019"]),
             (5, [Val.num 2015, Val.str "Melbourne", Val.str "CSA_2010_2019"]),
             (6, [Val.num 2016, Val.str "Melbourne", Val.str "CSA_2010_2019"]),
             (7, [Val.num 2017, Val.str "Melbourne", Val.str "CSA_2010_2019"]),
             (8, [Val.num 2018, Val.str "Melbourne", Val.str "CSA_2010_2019"]),
             (9, [Val.num 2019, Val.str "Melbourne", Val.str "CSA_2010_2019"])] }

/-- A loaded September-vintage table with years 2012–2021. -/
def septT : DataFrame :=
  { cols := ["year", "lga_name", "data_source"],
    rows := [(0, [Val.num 2012, Val.str "Melbourne", Val.str "CSA_2012_2021"]),
             (1, [Val.num 2013, Val.str "Melbourne", Val.str "CSA_2012_2021"]),
             (2, [Val.num 2014, Val.str "Melbourne", Val.str "CSA_2012_2021"]),
             (3, [Val.num 2015, Val.str "Melbourne", Val.str "CSA_2012_2021"]),
             (4, [Val.num 2016, Val.str "Melbourne", Val.str "CSA_2012_2021"]),
             (5, [Val.num 2017, Val.str "Melbourne", Val.str "CSA_2012_2021"]),
             (6, [Val.num 2018, Val.str "Melbourne", Val.str "CSA_2012_2021"]),
             (7, [Val.num 2019, Val.str "Melbourne", Val.str "CSA_2012_2021"]),
             (8, [Val.num 2020, Val.str "Melbourne", Val.str "CSA_2012_2021"]),
             (9, [Val.num 2021, Val.str "Melbourne", Val.str "CSA_2012_2021"])] }

/-- Claim C1: with `prefer_september = true` (the default), for tables
whose `year` columns each have a non-missing value, `merge_time_series`
returns (up to the final sort) the concatenation of all September rows
with exactly those March rows whose year is strictly below the minimum
September year; on March years 2010–2019 and September years 2012–2021,
the output has 2010–2011 from the March source only and 2012–2021 from
the September source only, with no year drawn from both sources. -/
theorem merge_prefer_september_spec :
    (∀ a b : DataFrame, "year" ∈ a.cols → "year" ∈ b.cols →
      yearsOf a ≠ [] → yearsOf b ≠ [] →
      "lga_name" ∈ a.cols → "lga_name" ∈ b.cols →
      ∃ m m0, listMin (yearsOf b) = some m0 ∧ merge_both a b true = .ok m ∧
        (m.rows.map Prod.snd).Perm
          ((filterYearLt a m0).rows.map (fun r => alignRow a.cols (unionCols a.cols b.cols) r.2)
            ++ b.rows.map (fun r => alignRow b.cols (unionCols a.cols b.cols) r.2)))
    ∧ (merge_both marchT septT true).toOption.map (fun m =>
        m.rows.map (fun r => (getValRow m.cols r.2 "year", getValRow m.cols r.2 "data_source")))
      = some [(Val.num 2010, Val.str "CSA_2010_2019"), (Val.num 2011, Val.str "CSA_2010_2019"),
         (Val.num 2012, Val.str "CSA_2012_2021"), (Val.num 2013, Val.str "CSA_2012_2021"),
         (Val.num 2014, Val.str "CSA_2012_2021"), (Val.num 2015, Val.str "CSA_2012_2021"),
         (Val.num 2016, Val.str "CSA_2012_2021"), (Val.num 2017, Val.str "CSA_2012_2021"),
         (Val.num 2018, Val.str "CSA_2012_2021"), (Val.num 2019, Val.str "CSA_2012_2021"),
         (Val.num 2020, Val.str "CSA_2012_2021"), (Val.num 2021, Val.str "CSA_2012_2021")] := by
  constructor
  · intro a b hay hby _ hbne hal _
    obtain ⟨m, m0, hmin, hok, _, _, _, hperm⟩ := merge_both_true_spec a b hay hby hal hbne
    exact ⟨m, m0, hmin, hok, hperm⟩
  · decide

/-- Witness for C1 at the concrete 2010–2019 / 2012–2021 tables. -/
theorem merge_prefer_september_witness :
    ∃ m m0, listMin (yearsOf septT) = some m0 ∧ merge_both marchT septT true = .ok m ∧
      (m.rows.map Prod.snd).Perm
        ((filterYearLt marchT m0).rows.map
            (fun r => alignRow marchT.cols (unionCols marchT.cols septT.cols) r.2)
          ++ septT.rows.map
            (fun r => alignRow septT.cols (unionCols marchT.cols septT.cols) r.2)) :=
  merge_prefer_september_spec.1 marchT septT (by decide) (by decide) (by decide) (by decide)
    (by decide) (by decide)

/-- Claim C2: with `prefer_september = false`, the merge keeps all March
rows and exactly those September rows whose year is strictly above the
maximum March year; on the same inputs, 2010–2019 come from March and
2020–2021 from September. -/
theorem merge_prefer_march_spec :
    (∀ a b : DataFrame, "year" ∈ a.cols → "year" ∈ b.cols →
      yearsOf a ≠ [] → yearsOf b ≠ [] →
      "lga_name" ∈ a.cols → "lga_name" ∈ b.cols →
      ∃ m m0, listMax (yearsOf a) = some m0 ∧ merge_both a b false = .ok m ∧
        (m.rows.map Prod.snd).Perm
          (a.rows.map (fun r => alignRow a.cols (unionCols a.cols b.cols) r.2)
            ++ (filterYearGt b m0).rows.map (fun r => alignRow b.cols (unionCols a.cols b.cols) r.2)))
    ∧ (merge_both marchT septT false).toOption.map (fun m =>
        m.rows.map (fun r => (getValRow m.cols r.2 "year", getValRow m.cols r.2 "data_source")))
      = some [(Val.num 2010, Val.str "CSA_2010_2019"), (Val.num 2011, Val.str "CSA_2010_2019"),
         (Val.num 2012, Val.str "CSA_2010_2019"), (Val.num 2013, Val.str "CSA_2010_2019"),
         (Val.num 2014, Val.str "CSA_2010_2019"), (Val.num 2015, Val.str "CSA_2010_2019"),
         (Val.num 2016, Val.str "CSA_2010_2019"), (Val.num 2017, Val.str "CSA_2010_2019"),
         (Val.num 2018, Val.str "CSA_2010_2019"), (Val.num 2019, Val.str "CSA_2010_2019"),
         (Val.num 2020, Val.str "CSA_2012_2021"), (Val.num 2021, Val.str "CSA_2012_2021")] := by
  constructor
  · intro a b hay hby hane _ hal _
    obtain ⟨m, m0, hmax, hok, _, _, _, hperm⟩ := merge_both_false_spec a b hay hby hal hane
    exact ⟨m, m0, hmax, hok, hperm⟩
  · decide

/-- Witness for C2 at the concrete 2010–2019 / 2012–2021 tables. -/
theorem merge_prefer_march_witness :
    ∃ m m0, listMax (yearsOf marchT) = some m0 ∧ merge_both marchT septT false = .ok m ∧
      (m.rows.map Prod.snd).Perm
        (marchT.rows.map
            (fun r => alignRow marchT.cols (unionCols marchT.cols septT.cols) r.2)
          ++ (filterYearGt septT m0).rows.map
            (fun r => alignRow septT.cols (unionCols marchT.cols septT.cols) r.2)) :=
  merge_prefer_march_spec.1 marchT septT (by decide) (by decide) (by decide) (by decide)
    (by decide) (by decide)

/-- Claim C4: in a merged table, every row whose year lies in the
overlap window (a year present in both inputs) carries the preferred
vintage's `data_source`; this follows from the merge policy itself
(each vintage's kept rows are year-filtered), not from deduplication. -/
theorem merge_overlap_single_source :
    ∀ (a b : DataFrame) (prefer : Bool) (y : Rat) (m : DataFrame),
      "year" ∈ a.cols → "year" ∈ b.cols →
      "lga_name" ∈ a.cols → "lga_name" ∈ b.cols →
      "data_source" ∈ a.cols → "data_source" ∈ b.cols →
      (∀ r ∈ a.rows, getValRow a.cols r.2 "data_source" = .str "CSA_2010_2019") →
      (∀ r ∈ b.rows, getValRow b.cols r.2 "data_source" = .str "CSA_2012_2021") →
      y ∈ yearsOf a → y ∈ yearsOf b →
      merge_both a b prefer = .ok m →
      ∀ r ∈ m.rows, getValRow m.cols r.2 "year" = .num y →
        getValRow m.cols r.2 "data_source" =
          (if prefer then Val.str "CSA_2012_2021" else Val.str "CSA_2010_2019") := by
  intro a b prefer y m hay hby hal hbl hdsa hdsb hsa hsb hya hyb hok r hr hyr
  cases prefer
  case false =>
    have hane : yearsOf a ≠ [] := fun h => by rw [h] at hya; exact List.not_mem_nil y hya
    obtain ⟨m', m0, hmax, hok', hcols, _, _, hperm⟩ := merge_both_false_spec a b hay hby hal hane
    rw [hok'] at hok
    injection hok with hm
    subst hm
    have hmem : r.2 ∈ m'.rows.map Prod.snd := List.mem_map_of_mem Prod.snd hr
    rw [hperm.mem_iff] at hmem
    rcases List.mem_append.mp hmem with hmem | hmem
    · rcases List.mem_map.mp hmem with ⟨q, hq, heq⟩
      rw [hcols, ← heq,
        getValRow_alignRow a.cols (unionCols a.cols b.cols) q.2 "data_source"
          (mem_unionCols_left hdsa)]
      simp only [Bool.false_eq_true, if_false]
      exact hsa q hq
    · exfalso
      rcases List.mem_map.mp hmem with ⟨q, hq, heq⟩
      obtain ⟨hqb, qy, hqy, hgt⟩ := mem_filterYearGt hq
      rw [hcols, ← heq,
        getValRow_alignRow b.cols (unionCols a.cols b.cols) q.2 "year"
          (mem_unionCols_left hay), hqy] at hyr
      injection hyr with h
      subst h
      exact absurd (listMax_ge hmax qy hya) (not_le.mpr hgt)
  case true =>
    have hbne : yearsOf b ≠ [] := fun h => by rw [h] at hyb; exact List.not_mem_nil y hyb
    obtain ⟨m', m0, hmin, hok', hcols, _, _, hperm⟩ := merge_both_true_spec a b hay hby hal hbne
    rw [hok'] at hok
    injection hok with hm
    subst hm
    have hmem : r.2 ∈ m'.rows.map Prod.snd := List.mem_map_of_mem Prod.snd hr
    rw [hperm.mem_iff] at hmem
    rcases List.mem_append.mp hmem with hmem | hmem
    · exfalso
      rcases List.mem_map.mp hmem with ⟨q, hq, heq⟩
      obtain ⟨hqa, qy, hqy, hlt⟩ := mem_filterYearLt hq
      rw [hcols, ← heq,
        getValRow_alignRow a.cols (unionCols a.cols b.cols) q.2 "year"
          (mem_unionCols_left hay), hqy] at hyr
      injection hyr with h
      subst h
      exact absurd (listMin_le hmin qy hyb) (not_le.mpr hlt)
    · rcases List.mem_map.mp hmem with ⟨q, hq, heq⟩
      rw [hcols, ← heq,
        getValRow_alignRow b.cols (unionCols a.cols b.cols) q.2 "data_source"
          (mem_unionCols_left hdsa)]
      simp only [if_true]
      exact hsb q hq

/-- The merge of the two concrete tables under the default policy. -/
def mergedTT : DataFrame :=
  ((merge_both marchT septT true).toOption).getD ⟨[], []⟩

/-- Witness for C4: the 2015 row (an overlap year) of the concrete
merge carries the September `data_source`. -/
theorem merge_overlap_single_source_witness :
    getValRow mergedTT.cols [Val.num 2015, Val.str "Melbourne", Val.str "CSA_2012_2021"]
        "data_source"
      = (if true then Val.str "CSA_2012_2021" else Val.str "CSA_2010_2019") :=
  merge_overlap_single_source marchT septT true 2015 mergedTT
    (by decide) (by decide) (by decide) (by decide) (by decide) (by decide)
    (by decide) (by decide) (by decide) (by decide) (by rfl)
    (5, [Val.num 2015, Val.str "Melbourne", Val.str "CSA_2012_2021"]) (by decide) (by decide)

theorem sortMerged_ne_noData (d : DataFrame) : sortMerged d ≠ .error .noData := by
  unfold sortMerged
  by_cases hc : "year" ∈ d.cols ∧ "lga_name" ∈ d.cols
  · rw [if_pos hc]
    simp
  · rw [if_neg hc]
    simp

theorem merge_both_ne_noData (a b : DataFrame) (p : Bool) :
    merge_both a b p ≠ .error .noData := by
  unfold merge_both
  by_cases hc : "year" ∈ b.cols ∧ "year" ∈ a.cols
  · rw [if_pos hc]
    cases p
    · simp only [Bool.false_eq_true, if_false]
      cases hmax : listMax (yearsOf a)
      · simp
      · exact sortMerged_ne_noData _
    · simp only [if_true]
      cases hmin : listMin (yearsOf b)
      · simp
      · exact sortMerged_ne_noData _
  · rw [if_neg hc]
    simp

/-- Claim C3: the merge succeeds with the single obtainable table,
returned unchanged, when the other source is neither cached nor on
disk; a table is unobtainable exactly when its cache slot is empty and
its file is absent; an obtained uncached table is the standardized,
stamped file contents; and the merge fails with `noData` if and only
if both tables are unobtainable. -/
theorem merge_single_source_spec :
    (∀ s : ProcState, (obtain2012 s).1 = none ↔ s.cached2012 = none ∧ s.file2012 = none)
    ∧ (∀ s : ProcState, (obtain2010 s).1 = none ↔ s.cached2010 = none ∧ s.file2010 = none)
    ∧ (∀ (s : ProcState) (raw : DataFrame), s.cached2010 = none → s.file2010 = some raw →
        (obtain2010 s).1 = some (load2010 raw))
    ∧ (∀ (s : ProcState) (raw : DataFrame), s.cached2012 = none → s.file2012 = some raw →
        (obtain2012 s).1 = some (load2012 raw))
    ∧ (∀ (s : ProcState) (p : Bool) (d : DataFrame),
        (obtain2012 s).1 = none → (obtain2010 s).1 = some d →
        (merge_time_series s p).1 = .ok d)
    ∧ (∀ (s : ProcState) (p : Bool) (d : DataFrame),
        (obtain2010 s).1 = none → (obtain2012 s).1 = some d →
        (merge_time_series s p).1 = .ok d)
    ∧ (∀ (s : ProcState) (p : Bool),
        (merge_time_series s p).1 = .error .noData ↔
          (obtain2012 s).1 = none ∧ (obtain2010 s).1 = none) := by
  refine ⟨?_, ?_, ?_, ?_, ?_, ?_, ?_⟩
  · intro s
    unfold obtain2012
    cases s.cached2012 <;> cases hf : s.file2012 <;> simp [hf]
  · intro s
    unfold obtain2010
    cases s.cached2010 <;> cases hf : s.file2010 <;> simp [hf]
  · intro s raw hcache hfile
    unfold obtain2010
    rw [hcache, hfile]
  · intro s raw hcache hfile
    unfold obtain2012
    rw [hcache, hfile]
  · intro s p d h12 h10
    unfold merge_time_series
    simp only [h12, h10]
  · intro s p d h10 h12
    unfold merge_time_series
    simp only [h12, h10]
  · intro s p
    unfold merge_time_series
    cases h12 : (obtain2012 s).1 <;> cases h10 : (obtain2010 s).1 <;>
      simp [h12, h10, merge_both_ne_noData]

/-- A raw March-vintage sheet as read from disk (pre-standardization). -/
def rawT : DataFrame :=
  { cols := ["Year", "LGA_NAME"],
    rows := [(0, [Val.str "2015", Val.str "Alpine"])] }

/-- A session whose only available source is the 2010–2019 file. -/
def stateMarchOnly : ProcState :=
  { cached2012 := none, cached2010 := none, file2012 := none, file2010 := some rawT }

/-- Witness for C3: with only the March file present, the merge returns
the loaded (standardized, stamped) March table. -/
theorem merge_single_source_witness :
    (merge_time_series stateMarchOnly true).1 = .ok (load2010 rawT) :=
  merge_single_source_spec.2.2.2.2.1 stateMarchOnly true (load2010 rawT)
    (by decide) (by decide)

theorem merge_both_ok_sorted {a b : DataFrame} {p : Bool} {m : DataFrame}
    (h : merge_both a b p = .ok m) : SortedByYearLga m ∧ FreshIndex m := by
  unfold merge_both at h
  by_cases hc : "year" ∈ b.cols ∧ "year" ∈ a.cols
  · rw [if_pos hc] at h
    cases p
    · simp only [Bool.false_eq_true, if_false] at h
      cases hmax : listMax (yearsOf a) with
      | none => rw [hmax] at h; exact Except.noConfusion h
      | some m0 =>
        rw [hmax] at h
        obtain ⟨_, hs, hf, _⟩ := sortMerged_ok h
        exact ⟨hs, hf⟩
    · simp only [if_true] at h
      cases hmin : listMin (yearsOf b) with
      | none => rw [hmin] at h; exact Except.noConfusion h
      | some m0 =>
        rw [hmin] at h
        obtain ⟨_, hs, hf, _⟩ := sortMerged_ok h
        exact ⟨hs, hf⟩
  · rw [if_neg hc] at h
    exact Except.noConfusion h

/-- Claim C8 (amended): when both source tables are obtained, the
merged result is sorted ascending by (year, lga_name) and re-indexed
0, 1, 2, …; a call degraded to a single source returns that table
as-is (unsorted, index untouched). -/
theorem merge_result_sorted_reindexed :
    (∀ (s : ProcState) (p : Bool) (d12 d10 m : DataFrame),
        (obtain2012 s).1 = some d12 → (obtain2010 s).1 = some d10 →
        (merge_time_series s p).1 = .ok m →
        SortedByYearLga m ∧ FreshIndex m)
    ∧ (∀ (s : ProcState) (p : Bool) (d : DataFrame),
        (obtain2012 s).1 = none → (obtain2010 s).1 = some d →
        (merge_time_series s p).1 = .ok d)
    ∧ (∀ (s : ProcState) (p : Bool) (d : DataFrame),
        (obtain2010 s).1 = none → (obtain2012 s).1 = some d →
        (merge_time_series s p).1 = .ok d) := by
  refine ⟨?_, ?_, ?_⟩
  · intro s p d12 d10 m h12 h10 hok
    unfold merge_time_series at hok
    simp only [h12, h10] at hok
    exact merge_both_ok_sorted hok
  · intro s p d h12 h10
    unfold merge_time_series
    simp only [h12, h10]
  · intro s p d h10 h12
    unfold merge_time_series
    simp only [h12, h10]

/-- An (unsorted, arbitrarily indexed) cached March table. -/
def badT : DataFrame :=
  { cols := ["year", "lga_name"],
    rows := [(3, [Val.num 2015, Val.str "B"]), (7, [Val.num 2010, Val.str "A"])] }

/-- A session holding only `badT`, in cache. -/
def stateBadOnly : ProcState :=
  { cached2012 := none, cached2010 := some badT, file2012 := none, file2010 := none }

/-- Counterexample to C8 as stated: a successful single-source merge
returns its table unsorted and with a non-consecutive index. -/
theorem merge_result_sorted_counterexample :
    (merge_time_series stateBadOnly true).1 = .ok badT ∧
      ¬ SortedByYearLga badT ∧ ¬ FreshIndex badT := by
  refine ⟨by rfl, ?_, ?_⟩
  · intro h
    unfold SortedByYearLga at h
    have h2 := (List.pairwise_cons.mp h).1 [Val.num 2010, Val.str "A"] (by decide)
    exact absurd h2 (by decide)
  · intro h
    unfold FreshIndex at h
    exact absurd h (by decide)

/-- Witness for C8 (amended) at the concrete two-table session. -/
theorem merge_result_sorted_witness :
    SortedByYearLga mergedTT ∧ FreshIndex mergedTT :=
  merge_result_sorted_reindexed.1
    { cached2012 := some septT, cached2010 := some marchT, file2012 := none, file2010 := none }
    true septT marchT mergedTT (by decide) (by decide) (by rfl)

theorem obtain2012_no_write (s : ProcState) (pth : String) :
    FsEvent.write pth ∉ (obtain2012 s).2 := by
  unfold obtain2012
  cases s.cached2012 <;> [cases s.file2012 <;> simp; simp]

theorem obtain2010_no_write (s : ProcState) (pth : String) :
    FsEvent.write pth ∉ (obtain2010 s).2 := by
  unfold obtain2010
  cases s.cached2010 <;> [cases s.file2010 <;> simp; simp]

theorem merge_time_series_no_write (s : ProcState) (p : Bool) (pth : String) :
    FsEvent.write pth ∉ (merge_time_series s p).2 := by
  have h : (merge_time_series s p).2 = (obtain2012 s).2 ++ (obtain2010 s).2 := by
    unfold merge_time_series
    cases h12 : (obtain2012 s).1 <;> cases h10 : (obtain2010 s).1 <;>
      simp only [h12, h10]
  rw [h]
  intro hmem
  rcases List.mem_append.mp hmem with hmem | hmem
  · exact obtain2012_no_write s pth hmem
  · exact obtain2010_no_write s pth hmem

/-- Claim C7 (amended): for an unsupported format, if the merge that
`export_merged_data` performs first succeeds, the export fails with the
unsupported-format error and writes no file — but the merge itself runs
before the format check and may read the source files. -/
theorem export_unsupported_spec :
    ∀ (s : ProcState) (fmt : String) (fn : Option String) (m : DataFrame),
      fmt ≠ "csv" → fmt ≠ "excel" → fmt ≠ "parquet" →
      (merge_time_series s true).1 = .ok m →
      (export_merged_data s fmt fn).1 = .error .unsupportedFormat ∧
        (export_merged_data s fmt fn).2 = (merge_time_series s true).2 ∧
        ∀ pth, FsEvent.write pth ∉ (export_merged_data s fmt fn).2 := by
  intro s fmt fn m h1 h2 h3 hok
  have hred : export_merged_data s fmt fn = (.error .unsupportedFormat, (merge_time_series s true).2) := by
    unfold export_merged_data
    rcases hm : merge_time_series s true with ⟨res, evs⟩
    rw [hm] at hok
    simp only at hok
    subst hok
    simp only [if_neg h1, if_neg h2, if_neg h3]
  rw [hred]
  exact ⟨rfl, rfl, fun pth hmem => merge_time_series_no_write s true pth hmem⟩

/-- Counterexample to C7 as stated: exporting with format `xml` does
fail with the unsupported-format error, but only after the merge has
already read a source file from disk — the failure is not before all
filesystem access. -/
theorem export_unsupported_counterexample :
    (export_merged_data stateMarchOnly "xml" none).1 = .error .unsupportedFormat ∧
      FsEvent.read "criminal_incidents_2010_2019" ∈
        (export_merged_data stateMarchOnly "xml" none).2 := by
  exact ⟨by rfl, by decide⟩

/-- Witness for C7 (amended) at the concrete single-file session. -/
theorem export_unsupported_witness :
    (export_merged_data stateMarchOnly "xml" none).1 = .error .unsupportedFormat ∧
      (export_merged_data stateMarchOnly "xml" none).2 =
        (merge_time_series stateMarchOnly true).2 ∧
      ∀ pth, FsEvent.write pth ∉ (export_merged_data stateMarchOnly "xml" none).2 :=
  export_unsupported_spec stateMarchOnly "xml" none (load2010 rawT)
    (by decide) (by decide) (by decide) (by rfl)

theorem lookup_mem : ∀ {m : List (String × String)} {k v : String},
    m.lookup k = some v → (k, v) ∈ m := by
  intro m
  induction m with
  | nil => intro k v h; simp [List.lookup] at h
  | cons p ps ih =>
    intro k v h
    rcases p with ⟨a, b⟩
    by_cases hk : k = a
    · subst hk
      simp [List.lookup] at h
      subst h
      exact List.mem_cons_self _ _
    · have hbeq : (k == a) = false := beq_eq_false_iff_ne.mpr hk
      simp only [List.lookup, hbeq] at h
      exact List.mem_cons_of_mem _ (ih h)

/-- Every canonical name in the mapping's range is itself mapped to
itself (or not mapped at all): renaming is stable on its own output. -/
def mappingFixed (m : List (String × String)) : Prop :=
  ∀ p ∈ m, renameCol m p.2 = p.2

theorem mappingFixed_2012_2021 : mappingFixed mapping_2012_2021 := by
  unfold mappingFixed
  decide

theorem mappingFixed_2010_2019 : mappingFixed mapping_2010_2019 := by
  unfold mappingFixed
  decide

theorem mappingFixed_COLUMN_MAPPINGS (st : String) : mappingFixed (COLUMN_MAPPINGS st) := by
  unfold COLUMN_MAPPINGS
  by_cases h1 : st = "2012_2021"
  · rw [if_pos h1]
    exact mappingFixed_2012_2021
  · rw [if_neg h1]
    by_cases h2 : st = "2010_2019"
    · rw [if_pos h2]
      exact mappingFixed_2010_2019
    · rw [if_neg h2]
      intro p hp
      cases hp

theorem renameCol_idem {m : List (String × String)} (hm : mappingFixed m) (c : String) :
    renameCol m (renameCol m c) = renameCol m c := by
  cases h : m.lookup c with
  | none =>
    have hc : renameCol m c = c := by
      unfold renameCol
      rw [h]
      rfl
    rw [hc]
    exact hc
  | some v =>
    have hc : renameCol m c = v := by
      unfold renameCol
      rw [h]
      rfl
    rw [hc]
    exact hm (c, v) (lookup_mem h)

theorem toNumericVal_idem (v : Val) : toNumericVal (toNumericVal v) = toNumericVal v := by
  cases v with
  | na => rfl
  | num q => rfl
  | str s =>
    simp only [toNumericVal]
    cases parseNumString s <;> rfl

theorem zipWith_coerce_idem (f : String → Val → Val) (hf : ∀ c v, f c (f c v) = f c v) :
    ∀ (cols : List String) (row : List Val),
      List.zipWith f cols (List.zipWith f cols row) = List.zipWith f cols row := by
  intro cols
  induction cols with
  | nil => intro row; rfl
  | cons c cs ih =>
    intro row
    cases row with
    | nil => rfl
    | cons v vs => simp [List.zipWith, hf, ih]

theorem coerceYearRow_idem (cols : List String) (row : List Val) :
    coerceYearRow cols (coerceYearRow cols row) = coerceYearRow cols row := by
  unfold coerceYearRow
  apply zipWith_coerce_idem
  intro c v
  by_cases hc : c = "year"
  · simp [hc, toNumericVal_idem]
  · simp [hc]

theorem DataFrame.eq_of_parts {a b : DataFrame} (h1 : a.cols = b.cols)
    (h2 : a.rows = b.rows) : a = b := by
  cases a
  cases b
  simp only at h1 h2
  rw [h1, h2]

theorem standardize_columns_cols (df : DataFrame) (st : String) :
    (standardize_columns df st).cols = df.cols.map (renameCol (COLUMN_MAPPINGS st)) := by
  unfold standardize_columns
  by_cases hy : "year" ∈ df.cols.map (renameCol (COLUMN_MAPPINGS st))
  · rw [if_pos hy]
  · rw [if_neg hy]

theorem standardize_columns_rows (df : DataFrame) (st : String) :
    (standardize_columns df st).rows =
      if "year" ∈ df.cols.map (renameCol (COLUMN_MAPPINGS st)) then
        df.rows.map (fun r =>
          (r.1, coerceYearRow (df.cols.map (renameCol (COLUMN_MAPPINGS st))) r.2))
      else df.rows := by
  unfold standardize_columns
  by_cases hy : "year" ∈ df.cols.map (renameCol (COLUMN_MAPPINGS st))
  · rw [if_pos hy, if_pos hy]
  · rw [if_neg hy, if_neg hy]

theorem standardize_columns_map_fixed (df : DataFrame) (st : String) :
    (df.cols.map (renameCol (COLUMN_MAPPINGS st))).map (renameCol (COLUMN_MAPPINGS st))
      = df.cols.map (renameCol (COLUMN_MAPPINGS st)) := by
  rw [List.map_map]
  exact List.map_congr_left
    (fun c _ => renameCol_idem (mappingFixed_COLUMN_MAPPINGS st) c)

theorem standardize_columns_idem (df : DataFrame) (st : String) :
    standardize_columns (standardize_columns df st) st = standardize_columns df st := by
  apply DataFrame.eq_of_parts
  · rw [standardize_columns_cols, standardize_columns_cols, standardize_columns_map_fixed]
  · rw [standardize_columns_rows, standardize_columns_cols, standardize_columns_map_fixed,
      standardize_columns_rows]
    by_cases hy : "year" ∈ df.cols.map (renameCol (COLUMN_MAPPINGS st))
    · rw [if_pos hy, if_pos hy, List.map_map]
      apply List.map_congr_left
      intro r _
      simp only [Function.comp]
      rw [coerceYearRow_idem]
    · rw [if_neg hy, if_neg hy]

/-- Claim C5: standardization renames exactly the columns that are keys
of the vintage's mapping (to their mapped canonical names), passes all
other columns through unchanged, never errors on unknown columns or
vintages (it is a total function), and is idempotent. -/
theorem standardize_columns_rename_spec :
    (∀ (df : DataFrame) (st : String),
      (standardize_columns df st).cols = df.cols.map (fun c =>
        match (COLUMN_MAPPINGS st).lookup c with
        | some v => v
        | none => c))
    ∧ (∀ (df : DataFrame) (st : String),
        standardize_columns (standardize_columns df st) st = standardize_columns df st) := by
  constructor
  · intro df st
    rw [standardize_columns_cols]
    apply List.map_congr_left
    intro c _
    unfold renameCol
    cases (COLUMN_MAPPINGS st).lookup c <;> rfl
  · exact standardize_columns_idem

theorem toNumericVal_na_or_num (v : Val) :
    toNumericVal v = .na ∨ ∃ q, toNumericVal v = .num q := by
  cases v with
  | na => exact Or.inl rfl
  | num q => exact Or.inr ⟨q, rfl⟩
  | str s =>
    simp only [toNumericVal]
    cases parseNumString s with
    | none => exact Or.inl rfl
    | some q => exact Or.inr ⟨q, rfl⟩

/-- Claim C6: after standardization the `year` column is numeric —
every cell under a `year` label is a number or missing; string cells
that parse become their numeric value and unparseable ones become
missing; the coercion is a total function (it never raises); in
particular "2015" becomes 2015 and "N/A" becomes missing. -/
theorem year_coercion_numeric_spec :
    (∀ v, toNumericVal v = .na ∨ ∃ q, toNumericVal v = .num q)
    ∧ (∀ s q, parseNumString s = some q → toNumericVal (.str s) = .num q)
    ∧ (∀ s, parseNumString s = none → toNumericVal (.str s) = .na)
    ∧ toNumericVal (.str "2015") = .num 2015
    ∧ toNumericVal (.str "N/A") = .na
    ∧ (∀ (df : DataFrame) (st : String) (r : Nat × List Val) (i : Nat) (v : Val),
        r ∈ (standardize_columns df st).rows →
        (standardize_columns df st).cols.get? i = some "year" →
        r.2.get? i = some v →
        v = .na ∨ ∃ q, v = .num q) := by
  refine ⟨toNumericVal_na_or_num, ?_, ?_, by decide, by decide, ?_⟩
  · intro s q h
    simp only [toNumericVal, h]
  · intro s h
    simp only [toNumericVal, h]
  · intro df st r i v hr hcol hget
    rw [standardize_columns_rows] at hr
    by_cases hy : "year" ∈ df.cols.map (renameCol (COLUMN_MAPPINGS st))
    · rw [if_pos hy] at hr
      rcases List.mem_map.mp hr with ⟨q, _, heq⟩
      have hr2 : r.2 = coerceYearRow (df.cols.map (renameCol (COLUMN_MAPPINGS st))) q.2 := by
        rw [← heq]
      rw [hr2] at hget
      unfold coerceYearRow at hget
      rw [List.get?_eq_getElem?] at hget
      rcases List.getElem?_zipWith_eq_some.mp hget with ⟨c, w, hc, _, hv⟩
      rw [standardize_columns_cols, List.get?_eq_getElem?] at hcol
      rw [hcol] at hc
      injection hc with hc
      rw [← hc] at hv
      simp only [if_pos] at hv
      rw [← hv]
      exact toNumericVal_na_or_num w
    · exfalso
      rw [standardize_columns_cols] at hcol
      exact hy (List.get?_mem hcol)

/-- Witness for C6 at a concrete frame whose `year` column holds an
unparseable string. -/
theorem year_coercion_numeric_witness :
    Val.na = Val.na ∨ ∃ q, Val.na = Val.num q :=
  year_coercion_numeric_spec.2.2.2.2.2
    { cols := ["year"], rows := [(0, [Val.str "abc"])] } "2010_2019"
    (0, [Val.na]) 0 Val.na (by decide) (by decide) (by decide)

theorem rowKeyDY_trend (u v w z : Val) : rowKeyDY trendCols [u, v, w, z] = (v, u) := rfl

theorem rowKeyDY_base (u v w : Val) : rowKeyDY trendBaseCols [u, v, w] = (v, u) := rfl

theorem getValRow_trend_div (u v w z : Val) :
    getValRow trendCols [u, v, w, z] "offence_division" = v := rfl

theorem getValRow_trend_yoy (u v w z : Val) :
    getValRow trendCols [u, v, w, z] "yoy_change" = z := rfl

theorem getValRow_base_div (u v w : Val) :
    getValRow trendBaseCols [u, v, w] "offence_division" = v := rfl

theorem addYoy_map_key : ∀ (prev : Option (Val × Val)) (l : List (Nat × List Val)),
    (∀ p ∈ l, p.2.length = 3) →
    (addYoy prev l).map (fun p => rowKeyDY trendCols p.2)
      = l.map (fun p => rowKeyDY trendBaseCols p.2) := by
  intro prev l
  induction l generalizing prev with
  | nil => intro h; rfl
  | cons x xs ih =>
    intro h
    rcases x with ⟨i, r⟩
    rcases List.length_eq_three.mp (h (i, r) (List.mem_cons_self _ _)) with ⟨a, b, c, rfl⟩
    simp only [addYoy, List.map_cons]
    congr 1
    exact ih _ (fun p hp => h p (List.mem_cons_of_mem _ hp))

theorem addYoy_chain : ∀ (prev : Option (Val × Val)) (l : List (Nat × List Val)),
    (∀ p ∈ l, p.2.length = 3) →
    List.Chain' (fun p q =>
      getValRow trendCols p.2 "offence_division" ≠ getValRow trendCols q.2 "offence_division" →
      getValRow trendCols q.2 "yoy_change" = Val.na) (addYoy prev l) := by
  intro prev l
  induction l generalizing prev with
  | nil => intro h; exact List.chain'_nil
  | cons x xs ih =>
    intro h
    rcases x with ⟨i, r⟩
    rcases List.length_eq_three.mp (h (i, r) (List.mem_cons_self _ _)) with ⟨a1, b1, c1, rfl⟩
    simp only [addYoy]
    apply List.chain'_cons'.mpr
    refine ⟨?_, ih _ (fun p hp => h p (List.mem_cons_of_mem _ hp))⟩
    intro q hq
    cases xs with
    | nil => simp [addYoy] at hq
    | cons y ys =>
      rcases y with ⟨j, ry⟩
      rcases List.length_eq_three.mp (h (j, ry) (List.mem_cons_of_mem _ (List.mem_cons_self _ _)))
        with ⟨a2, b2, c2, rfl⟩
      simp only [addYoy, List.head?, Option.mem_def, Option.some.injEq] at hq
      subst hq
      simp only [List.cons_append, List.nil_append, getValRow_trend_div, getValRow_trend_yoy,
        getValRow_base_div]
      intro hne
      rw [if_neg]
      intro hcontra
      exact hne (by rw [hcontra])

theorem addYoy_head_yoy_na : ∀ (l : List (Nat × List Val)) (p : Nat × List Val),
    (∀ p ∈ l, p.2.length = 3) →
    (addYoy none l).head? = some p →
    getValRow trendCols p.2 "yoy_change" = Val.na := by
  intro l p h hp
  cases l with
  | nil => simp [addYoy] at hp
  | cons x xs =>
    rcases x with ⟨i, r⟩
    rcases List.length_eq_three.mp (h (i, r) (List.mem_cons_self _ _)) with ⟨a, b, c, rfl⟩
    simp only [addYoy, List.head?, Option.some.injEq] at hp
    subst hp
    simp only [List.cons_append, List.nil_append, getValRow_trend_yoy]

/-- The trend table is sorted ascending by (offence_division, year). -/
def SortedByDivYear (df : DataFrame) : Prop :=
  List.Pairwise (fun r s => pairLe (rowKeyDY df.cols r) (rowKeyDY df.cols s) = true)
    (df.rows.map Prod.snd)

/-- The first row, and every row opening a new offence_division group,
has a missing `yoy_change`. -/
def FirstYoyNa (df : DataFrame) : Prop :=
  (∀ p, df.rows.head? = some p → getValRow df.cols p.2 "yoy_change" = Val.na)
  ∧ List.Chain' (fun p q =>
      getValRow df.cols p.2 "offence_division" ≠ getValRow df.cols q.2 "offence_division" →
      getValRow df.cols q.2 "yoy_change" = Val.na) df.rows

/-- The two-year single-division input of the claim: incidents go
100 then 150. -/
def trendDf : DataFrame :=
  { cols := ["year", "offence_division", "incidents_recorded"],
    rows := [(0, [Val.num 2015, Val.str "A", Val.num 100]),
             (1, [Val.num 2016, Val.str "A", Val.num 150])] }

/-- Its trend table: second year's change is 50.0, first is missing. -/
def trendOut : DataFrame :=
  { cols := trendCols,
    rows := [(0, [Val.num 2015, Val.str "A", Val.num 100, Val.na]),
             (1, [Val.num 2016, Val.str "A", Val.num 150, Val.num 50])] }

theorem trends_frame_props (grows : List (List Val)) (h3 : ∀ r ∈ grows, r.length = 3) :
    SortedByDivYear
      (DataFrame.mk trendCols (addYoy none (lsort
        (fun p q => pairLe (rowKeyDY trendBaseCols p.2) (rowKeyDY trendBaseCols q.2))
        grows.enum)))
    ∧ FirstYoyNa
      (DataFrame.mk trendCols (addYoy none (lsort
        (fun p q => pairLe (rowKeyDY trendBaseCols p.2) (rowKeyDY trendBaseCols q.2))
        grows.enum))) := by
  have hlen : ∀ p ∈ lsort
      (fun p q => pairLe (rowKeyDY trendBaseCols p.2) (rowKeyDY trendBaseCols q.2))
      grows.enum, p.2.length = 3 := by
    intro p hp
    have hp2 := (lsort_perm _ _).mem_iff.mp hp
    have hp3 := List.mem_map_of_mem Prod.snd hp2
    rw [List.enum_map_snd] at hp3
    exact h3 _ hp3
  refine ⟨?_, ?_, ?_⟩
  · have hps := lsort_pairwise
      (fun p q : Nat × List Val =>
        pairLe (rowKeyDY trendBaseCols p.2) (rowKeyDY trendBaseCols q.2))
      (fun p q => pairLe_total _ _)
      (fun p q r hpq hqr => pairLe_trans _ _ _ hpq hqr) grows.enum
    have hkp : List.Pairwise (fun u v => pairLe u v = true)
        ((lsort (fun p q => pairLe (rowKeyDY trendBaseCols p.2) (rowKeyDY trendBaseCols q.2))
          grows.enum).map (fun p => rowKeyDY trendBaseCols p.2)) :=
      List.pairwise_map.mpr hps
    rw [← addYoy_map_key none _ hlen] at hkp
    unfold SortedByDivYear
    rw [List.pairwise_map]
    exact List.pairwise_map.mp hkp
  · intro p hp
    exact addYoy_head_yoy_na _ p hlen hp
  · exact addYoy_chain none _ hlen

/-- Claim C9: `get_offence_trends` fails with the missing-column error
when `offence_division` is absent; otherwise the result carries the
(year, offence_division) sums with a `yoy_change` column, is sorted by
(offence_division, year), and the first row of each offence_division
group has a missing change; on the two-year single-division input
100 → 150 the second year's change is 50.0 and the first is missing. -/
theorem offence_trends_spec :
    (∀ df : DataFrame, "offence_division" ∉ df.cols →
      get_offence_trends df = .error .missingColumn)
    ∧ (∀ df t : DataFrame, get_offence_trends df = .ok t →
        t.cols = trendCols ∧ SortedByDivYear t ∧ FirstYoyNa t)
    ∧ get_offence_trends trendDf = .ok trendOut := by
  refine ⟨?_, ?_, by rfl⟩
  · intro df h
    unfold get_offence_trends
    rw [if_neg h]
  · intro df t h
    unfold get_offence_trends at h
    by_cases h1 : "offence_division" ∈ df.cols
    · rw [if_pos h1] at h
      by_cases h2 : "year" ∈ df.cols ∧ "incidents_recorded" ∈ df.cols
      · rw [if_pos h2] at h
        simp only [Except.ok.injEq] at h
        subst h
        refine ⟨rfl, ?_⟩
        apply trends_frame_props
        intro r hr
        rcases List.mem_map.mp hr with ⟨k, _, hk⟩
        rw [← hk]
        rfl
      · rw [if_neg h2] at h
        exact Except.noConfusion h
    · rw [if_neg h1] at h
      exact Except.noConfusion h

/-- Witness for C9: the concrete trend table is well-formed, sorted and
first-row-missing. -/
theorem offence_trends_witness :
    trendOut.cols = trendCols ∧ SortedByDivYear trendOut ∧ FirstYoyNa trendOut :=
  offence_trends_spec.2.1 trendDf trendOut (by rfl)

/-- Claim C10: `get_lga_summary` silently drops requested group columns
that are absent from the table — the result depends only on the present
ones, so an absent column in the request never by itself changes the
outcome (in particular it never by itself causes an error). -/
theorem lga_summary_filters_absent_cols :
    (∀ (df : DataFrame) (group_cols : List String),
      get_lga_summary df group_cols =
        get_lga_summary df (group_cols.filter (fun c => c ∈ df.cols)))
    ∧ (∀ (df : DataFrame) (group_cols : List String) (c : String), c ∉ df.cols →
        get_lga_summary df (c :: group_cols) = get_lga_summary df group_cols) := by
  constructor
  · intro df group_cols
    have hff : (group_cols.filter (fun c => decide (c ∈ df.cols))).filter
        (fun c => decide (c ∈ df.cols)) = group_cols.filter (fun c => decide (c ∈ df.cols)) := by
      rw [List.filter_filter]
      simp only [Bool.and_self]
    unfold get_lga_summary
    rw [hff]
  · intro df group_cols c hc
    have hstep : (c :: group_cols).filter (fun x => decide (x ∈ df.cols)) =
        group_cols.filter (fun x => decide (x ∈ df.cols)) := by
      simp [List.filter_cons, hc]
    unfold get_lga_summary
    rw [hstep]

/-- Witness for C10: requesting the absent column `ghost` alongside
`year` yields the same summary as requesting `year` alone. -/
theorem lga_summary_filters_witness :
    get_lga_summary
        { cols := ["year", "incidents_recorded"],
          rows := [(0, [Val.num 2015, Val.num 7])] } ("ghost" :: ["year"])
      = get_lga_summary
        { cols := ["year", "incidents_recorded"],
          rows := [(0, [Val.num 2015, Val.num 7])] } ["year"] :=
  lga_summary_filters_absent_cols.2
    { cols := ["year", "incidents_recorded"], rows := [(0, [Val.num 2015, Val.num 7])] }
    ["year"] "ghost" (by decide)
